import Mathlib

/-!
# Verification of Parallel.GAMIT integrity-check utilities

Shallow embedding of the data model and operations of
`com/IntegrityCheck.py`, `classes/pyEvents.py` and `classes/Utils.py`,
together with theorems settling the specification claims about them.

Calendar days are represented by their Modified Julian Day number as an
`Int` (the `pyDate` library, external to this repository, orders and
compares dates by MJD); timestamps are seconds as `Int`.
-/

namespace ParallelGamit

/-! ## Gap scans (`GetGaps`, `GetStnGaps`) -/

/-- Insert a day into an ascending list, keeping it ascending. -/
def insertDay (d : Int) : List Int → List Int
  | [] => [d]
  | x :: xs => if d ≤ x then d :: x :: xs else x :: insertDay d xs

/-- Ascending sort of a list of days (models the SQL `ORDER BY`). -/
def sortDays : List Int → List Int
  | [] => []
  | x :: xs => insertDay x (sortDays xs)

/-- Embeds the SQL query issued by `GetGaps` / `GetStnGaps`:
`SELECT * FROM rinex_proc WHERE ... "ObservationSTime" BETWEEN start AND end
ORDER BY "ObservationSTime"`.  The inventory of one station is a list of
observation days (MJD); the query keeps the days inside the requested window
and returns them in ascending order. -/
def queryRinexDays (inv : List Int) (qs qe : Int) : List Int :=
  sortDays (inv.filter (fun d => qs ≤ d && d ≤ qe))

/-- The `n` consecutive days starting at `first` (embeds
`[pyDate.Date(mjd=mjd) for mjd in range(start_date.mjd, end_date.mjd+1)]`). -/
def dayRange (first : Int) : Nat → List Int
  | 0 => []
  | n + 1 => first :: dayRange (first + 1) n

/-- Embeds `GetGaps` (IntegrityCheck.py:452-477).  Returns
`(gaps, possible_doys)`.  Following the source, when rows exist the start
and end dates are reset to the first and last observed day
(`# make the start date and end date the limits of the data`), the list of
possible days is every day between those limits, and the gaps are the
possible days with no inventory row. -/
def GetGaps (inv : List Int) (qs qe : Int) : List Int × List Int :=
  let rnxtbl := queryRinexDays inv qs qe
  match rnxtbl with
  | [] => ([], [])
  | first :: rest =>
      let lastDay := (first :: rest).getLast (by simp)
      let possible := dayRange first (lastDay - first + 1).toNat
      (possible.filter (fun d => decide (d ∉ first :: rest)), possible)

/-- One reported gap of `GetStnGaps`: start day, end day, length in days,
mirroring the fields printed by
`'%s.%s gap in data found %s -> %s (%i days)'`. -/
structure StnGap where
  gapBegin : Int
  gapEnd : Int
  days : Int
deriving DecidableEq, Repr

/-- The indexed loop of `GetStnGaps` (IntegrityCheck.py:513-528), entered at
`i = 1` with `prev` the previous row's day and `gapBegin` the current
`gap_begin` value (`None` encoded as `none`).  A gap is opened when the
current day is not the successor of the previous one, and is closed — and
reported when longer than `ignore` — only when a consecutive pair of
observed days is encountered while a gap is open. -/
def stnGapsLoop (ignore : Int) : Option Int → Int → List Int → List StnGap
  | _, _, [] => []
  | gapBegin, prev, d :: rest =>
      if d = prev + 1 then
        match gapBegin with
        | some g =>
            let days := (prev - 1) - g + 1
            (if days > ignore then [⟨g, prev - 1, days⟩] else []) ++
              stnGapsLoop ignore none d rest
        | none => stnGapsLoop ignore none d rest
      else
        stnGapsLoop ignore (if gapBegin = none then some (prev + 1) else gapBegin) d rest

/-- Embeds `GetStnGaps` for one station (IntegrityCheck.py:499-534):
queries the inventory rows in the window and runs the gap-coalescing loop
over consecutive rows. -/
def GetStnGaps (inv : List Int) (ignore : Int) (qs qe : Int) : List StnGap :=
  match queryRinexDays inv qs qe with
  | [] => []
  | d :: rest => stnGapsLoop ignore none d rest

/-! ## Python string primitives

The Python string operations used by the source (`str.replace`, `str.lower`,
`int(...)`, `str.split`, `in`) are embedded as structurally recursive
functions over the character list of a `String`, so that every definition
in this file evaluates inside the kernel. -/

/-- If `pat` is a leading piece of `s`, return the remainder of `s`. -/
def stripExact : List Char → List Char → Option (List Char)
  | [], s => some s
  | _, [] => none
  | p :: ps, c :: cs => if p = c then stripExact ps cs else none

/-- Replace every non-overlapping occurrence of `pat` (left to right) by
`rep`; `fuel` bounds the recursion and is initialised to the string length. -/
def replaceGo (pat rep : List Char) : Nat → List Char → List Char
  | _, [] => []
  | 0, s => s
  | n + 1, c :: cs =>
      match stripExact pat (c :: cs) with
      | some rem => rep ++ replaceGo pat rep n rem
      | none => c :: replaceGo pat rep n cs

/-- Python `s.replace(pat, rep)`. -/
def pyReplace (s pat rep : String) : String :=
  if pat.data.isEmpty then s
  else ⟨replaceGo pat.data rep.data s.data.length s.data⟩

/-- ASCII lower-casing of one character (receiver serials are ASCII). -/
def pyLowerChar (c : Char) : Char :=
  if 'A' ≤ c ∧ c ≤ 'Z' then Char.ofNat (c.toNat + 32) else c

/-- Python `s.lower()` on ASCII strings. -/
def pyLower (s : String) : String := ⟨s.data.map pyLowerChar⟩

/-- Numeric value of a decimal digit character. -/
def digitVal (c : Char) : Option Nat :=
  if '0' ≤ c ∧ c ≤ '9' then some (c.toNat - 48) else none

/-- Accumulate the value of a run of decimal digits. -/
def charsToNatGo : Nat → List Char → Option Nat
  | acc, [] => some acc
  | acc, c :: cs => match digitVal c with
      | some d => charsToNatGo (10 * acc + d) cs
      | none => none

/-- Value of a non-empty all-digit character list. -/
def charsToNat : List Char → Option Nat
  | [] => none
  | l => charsToNatGo 0 l

/-- Python `int(s)` on the decimal strings considered (optional leading
minus sign followed by digits); `none` models the `ValueError` raise. -/
def pyInt (s : String) : Option Int :=
  match s.data with
  | '-' :: rest => (charsToNat rest).map (fun n => -(n : Int))
  | l => (charsToNat l).map (fun n => (n : Int))

/-- Split on a separator character, keeping empty pieces. -/
def splitGo (sep : Char) : List Char → List Char → List (List Char)
  | acc, [] => [acc.reverse]
  | acc, c :: cs =>
      if c = sep then acc.reverse :: splitGo sep [] cs
      else splitGo sep (c :: acc) cs

/-- Python `s.split(sep)` for a one-character separator. -/
def pySplit (s : String) (sep : Char) : List String :=
  (splitGo sep [] s.data).map (fun l => ⟨l⟩)

/-- Python `c in s` for a character. -/
def pyContains (s : String) (c : Char) : Bool := s.data.any (fun x => x = c)

/-! ## Spatial coherence (`CheckSpatialCoherence`) -/

/-- A station identity: (NetworkCode, StationCode). -/
structure StnId where
  net : String
  stn : String
deriving DecidableEq, Repr

/-- A candidate station for a PPP solution, with its distance in metres
from the solution's position.  Distances are modelled as exact integers;
the only operations the resolver performs on them are the comparison with
the 100 m tolerance and minimisation. -/
structure Candidate where
  id : StnId
  distance : Int
deriving DecidableEq, Repr

/-- The single closest station of a list (ties to the earliest), as a
zero-or-one element list. -/
def closestList : List Candidate → List Candidate
  | [] => []
  | c :: rest => [rest.foldl (fun b x => if x.distance < b.distance then x else b) c]

/-- Modelled from the spec: `pyPPP.PPPSpatialCheck.verify_spatial_coherence`
is not under `src/`; only its caller `CheckSpatialCoherence` is.  Per §4.3:
stations within the fixed 100 m tolerance are the candidates; zero
candidates classify `NoMatch` and separately locate the single closest
station irrespective of tolerance; exactly one candidate classifies
`Confirmed` when its identity equals the declared station and `NameMismatch`
otherwise; with several candidates, a unique identity match with no closer
competitor is `Confirmed`, a unique identity match with a closer competitor
additionally reports that closest competitor, anything else is `Ambiguous`.
The returned triple `(Result, match, closest_stn)` is the shape the caller
in `CheckSpatialCoherence` destructures: `Result` true iff confirmed,
`match` the candidate list relevant to the classification, `closest_stn`
the separately-reported closest station. -/
def verify_spatial_coherence (stations : List Candidate) (declared : StnId) :
    Bool × List Candidate × List Candidate :=
  match stations.filter (fun c => decide (c.distance ≤ 100)) with
  | [] => (false, [], closestList stations)
  | [c] => (decide (c.id = declared), [c], [])
  | c1 :: c2 :: cs =>
      match (c1 :: c2 :: cs).filter (fun c => decide (c.id = declared)) with
      | [c] =>
          if (c1 :: c2 :: cs).all (fun x => decide (c.distance ≤ x.distance))
          then (true, [c], [])
          else (true, [c], closestList (c1 :: c2 :: cs))
      | _ => (false, c1 :: c2 :: cs, [])

/-- The per-solution outcome of `CheckSpatialCoherence`
(IntegrityCheck.py:408-447): either no warning (the solution is confirmed)
or one of the five warning messages, carrying the identities the message
reports. -/
inductive CoherenceWarning
  | confirmedNoWarning
  | singleCandidateMismatch (declaredNet declaredStn foundNet foundStn : String)
  | closerStation (declared : StnId) (closer : Candidate) (matched : Candidate)
  | bestMatchMismatch (declared : StnId) (found : StnId)
  | multipleCandidates (declared : StnId) (cands : List Candidate)
  | noMatchWithin100 (declared : StnId) (closest : Candidate)
  | pyIndexError
deriving DecidableEq, Repr

/-- Embeds the per-solution branch of `CheckSpatialCoherence`
(IntegrityCheck.py:408-447) on the triple returned by the resolver.  Note
the mismatch test on line 412 requires *both* codes to differ
(`match[0]['NetworkCode'] != NetworkCode and match[0]['StationCode'] !=
StationCode`); `pyIndexError` marks the `match[0]`/`closest_stn[0]`
accesses on an empty list. -/
def CheckSpatialCoherenceOne (stations : List Candidate) (declared : StnId) :
    CoherenceWarning :=
  match verify_spatial_coherence stations declared with
  | (true, mtch, closest) =>
      match closest with
      | [] =>
          match mtch with
          | m0 :: _ =>
              if ¬ (m0.id.net = declared.net) ∧ ¬ (m0.id.stn = declared.stn)
              then .singleCandidateMismatch declared.net declared.stn m0.id.net m0.id.stn
              else .confirmedNoWarning
          | [] => .pyIndexError
      | c :: _ =>
          match mtch with
          | m0 :: _ => .closerStation declared c m0
          | [] => .pyIndexError
  | (false, mtch, closest) =>
      match mtch with
      | [m] => .bestMatchMismatch declared m.id
      | _ :: _ :: _ => .multipleCandidates declared mtch
      | [] =>
          match closest with
          | c :: _ => .noMatchWithin100 declared c
          | [] => .pyIndexError

/-! ## Station-info consistency walk (`StnInfoCheck`) -/

/-- The `DateStart`/`DateEnd` timestamps (seconds) of one station-info
record, as used by the consecutive-pair walk of `StnInfoCheck`; interior
records always carry a concrete `DateEnd`. -/
structure SIWindow where
  dateStart : Int
  dateEnd : Int
deriving DecidableEq, Repr

/-- The Python-2 truth value of the condition on IntegrityCheck.py:308,
`(sdate.datetime() - edate.datetime()).total_seconds > 1`: `total_seconds`
lacks call parentheses, so the left operand is a bound-method object, and
in CPython 2 every number compares less than any non-number object — the
condition is true regardless of the size of the gap.  (Under Python 3 the
same comparison raises `TypeError`.) -/
def totalSecondsMethodGtOne : Bool := true

/-- `zip(stninfo.records[0:-1], stninfo.records[1:])`. -/
def consecutivePairs (rs : List SIWindow) : List (SIWindow × SIWindow) :=
  rs.zip rs.tail

/-- Embeds the gap-query decision of `StnInfoCheck`
(IntegrityCheck.py:301-314): the consecutive record pairs for which the
walk queries `rinex_proc` for rows inside the gap, each returned as the
queried open interval `(DateEnd of the earlier, DateStart of the later)`. -/
def stnInfoGapPairsQueried (records : List SIWindow) : List (Int × Int) :=
  ((consecutivePairs records).filter (fun _ => totalSecondsMethodGtOne)).map
    (fun p => (p.1.dateEnd, p.2.dateStart))

/-- Embeds the uncovered-gap report of `StnInfoCheck`
(IntegrityCheck.py:308-324): among the queried pairs, those with at least
one inventory row strictly inside the gap (`rinexCount`) and no
station-info record resolvable at the gap's midpoint (`resolveMid`). -/
def stnInfoUncoveredGaps (records : List SIWindow)
    (rinexCount : Int → Int → Int) (resolveMid : Int → Option SIWindow) :
    List (SIWindow × SIWindow) :=
  (consecutivePairs records).filter (fun p =>
    totalSecondsMethodGtOne &&
      !(rinexCount p.1.dateEnd p.2.dateStart == 0) &&
      (resolveMid (p.2.dateStart + (p.1.dateEnd - p.2.dateStart) / 2)).isNone)

/-! ## Receiver-serial consistency (`compare_stninfo_rinex`,
`StnInfoRinexIntegrity`) -/

/-- One receiver-serial mismatch: `[date, rinex_serial,
stninfo.currentrecord.ReceiverSerial.lower()]` (IntegrityCheck.py:71);
dates are day numbers (MJD). -/
structure SerialDiff where
  date : Int
  obs : String
  decl : String
deriving DecidableEq, Repr

/-- Seconds per day, for the timestamp→day conversion. -/
def secondsPerDay : Int := 86400

/-- Day number of a timestamp (`pyDate.Date(datetime=...)`, modelled). -/
def dateOfTimestamp (t : Int) : Int := t / secondsPerDay

/-- Embeds `compare_stninfo_rinex` (IntegrityCheck.py:52-73): resolve the
station-info record active at the session midpoint (`resolve`, returning
the record's receiver serial or the `pyStationInfoException` text) and
compare serials case-insensitively; the caller has already lower-cased the
RINEX serial (IntegrityCheck.py:207). -/
def compare_stninfo_rinex (resolve : Int → Except String String)
    (stime etime : Int) (rinexSerial : String) :
    Option String × Option SerialDiff :=
  let mid := stime + (etime - stime) / 2
  match resolve mid with
  | .error e => (some ("Station Information error: " ++ e), none)
  | .ok serial =>
      if ¬ (pyLower serial = pyLower rinexSerial) then
        (none, some ⟨dateOfTimestamp mid, rinexSerial, pyLower serial⟩)
      else (none, none)

/-- Insert a mismatch into a list sorted by date, after earlier equal dates
(stable, like Python's sort). -/
def insertByDate (d : SerialDiff) : List SerialDiff → List SerialDiff
  | [] => [d]
  | x :: xs => if d.date < x.date then d :: x :: xs else x :: insertByDate d xs

/-- Stable sort by date. -/
def sortByDate : List SerialDiff → List SerialDiff
  | [] => []
  | x :: xs => insertByDate x (sortByDate xs)

/-- Embeds `get_differences` (IntegrityCheck.py:76-90): keep the mismatch
tuples of the per-file results and sort them by date. -/
def get_differences (results : List (Option String × Option SerialDiff)) :
    List SerialDiff :=
  sortByDate (results.filterMap (fun r => r.2))

/-- One piece of output of the coalescing report loop: a run header
(`'Warning! %s.%s from %s %s to '`) or a run closing line
(`'%s %s: RINEX SN %s != Station Information %s ...'`). -/
inductive ReportEmit
  | head (date : Int)
  | close (date : Int) (obs decl : String)
deriving DecidableEq, Repr

/-- The run-continuation test of IntegrityCheck.py:228:
`diff_vect[i+1][0] == diff[0] + 1 and diff_vect[i+1][1] == diff[1] and
diff_vect[i+1][2] == diff[2]`. -/
def sameRun (x y : SerialDiff) : Bool :=
  y.date == x.date + 1 && y.obs == x.obs && y.decl == x.decl

/-- The indexed print loop of `StnInfoRinexIntegrity`
(IntegrityCheck.py:217-234).  `lastD` is `diff_vect[-1]` (the Python
negative index reached when a run of length one closes at `i = 0`), `prev`
is `diff_vect[i-1]` for `i ≥ 1`, and the boolean is `print_head`. -/
def reportGo (lastD : SerialDiff) :
    Option SerialDiff → Bool → List SerialDiff → List ReportEmit
  | _, _, [] => []
  | _, ph, [x] => if ph then [.head x.date] else []
  | prev, ph, x :: y :: rest =>
      (if ph then [.head x.date] else []) ++
        (if sameRun x y then reportGo lastD (some x) false (y :: rest)
         else
           let p := prev.getD lastD
           .close x.date p.obs p.decl :: reportGo lastD (some x) true (y :: rest))

/-- The full report of `StnInfoRinexIntegrity` on a sorted difference
vector: the loop's output followed by the final closing line of
IntegrityCheck.py:236-239 (printed whenever the vector is non-empty, with
the last element's date and serials). -/
def coalescedReport (v : List SerialDiff) : List ReportEmit :=
  match v with
  | [] => []
  | x :: xs =>
      let lastD := (x :: xs).getLast (by simp)
      reportGo lastD none true (x :: xs) ++ [.close lastD.date lastD.obs lastD.decl]

/-- Number of closing lines — each reported range ends in exactly one. -/
def closeCount (es : List ReportEmit) : Nat :=
  es.countP (fun e => match e with | .close _ _ _ => true | _ => false)

/-- Number of boundaries between maximal runs of consecutive dates with
identical mismatched serial pairs. -/
def runBreaks : List SerialDiff → Nat
  | [] => 0
  | [_] => 0
  | x :: y :: rest => (if sameRun x y then 0 else 1) + runBreaks (y :: rest)

/-- Stated from the spec's words, for comparison with the report loop: the
partition of the sorted difference vector into maximal runs of consecutive
dates carrying the identical (observed, declared) mismatched pair. -/
def specRuns : List SerialDiff → List (List SerialDiff)
  | [] => []
  | x :: xs =>
      match specRuns xs with
      | [] => [[x]]
      | (y :: g) :: gs =>
          if sameRun x y then (x :: y :: g) :: gs else [x] :: (y :: g) :: gs
      | [] :: gs => [x] :: [] :: gs

/-! ## RINEX archive check and parallel dispatch
(`check_rinex_stn`, `stnrnx_callback`, `CheckRinexIntegrity`) -/

/-- One row of the `rinex` inventory table, with the fields the checked
operations read: station identity, observation year/day-of-year, file name
and session start timestamp. -/
structure RnxRow where
  net : String
  stn : String
  year : Int
  doy : Int
  filename : String
  stime : Int
deriving DecidableEq, Repr

/-- Modelled from the spec: `pyArchiveStruct.RinexStruct.build_rinex_path`
is not under `src/`.  Per §6 the archive collaborator builds a canonical
relative file path from (station identity, year, day-of-year, filename). -/
def buildRinexPath (net stn : String) (year doy : Int) (filename : String) :
    String :=
  net ++ "/" ++ toString year ++ "/" ++ toString doy ++ "/" ++ stn ++ "/" ++
    filename

/-- One station-check task as submitted to the job server: the inputs and
collaborator behaviour of one `check_rinex_stn` invocation.  `connFail`
carries the exception text when opening the database/configuration raises;
`removeFail` carries the exception text when `remove_rinex`/`insert_event`
raises for a row. -/
structure RnxCheckTask where
  net : String
  stn : String
  connFail : Option String
  rows : List RnxRow
  archivePath : String
  fileExists : String → Bool
  removeFail : RnxRow → Option String

/-- The row loop of `check_rinex_stn` (IntegrityCheck.py:116-139): build
each row's archive path, and when the file is missing remove the inventory
row, record the audit event and collect the path; a collaborator exception
escapes to the surrounding handler. -/
def checkRinexLoop (t : RnxCheckTask) :
    List RnxRow → List String → Except String (List String)
  | [], acc => .ok acc
  | r :: rest, acc =>
      let p := t.archivePath ++ "/" ++
        buildRinexPath t.net t.stn r.year r.doy r.filename
      if t.fileExists p then checkRinexLoop t rest acc
      else
        match t.removeFail r with
        | some e => .error e
        | none => checkRinexLoop t rest (acc ++ [p])

/-- Embeds `check_rinex_stn` (IntegrityCheck.py:93-143): every exception is
caught and returned as the first component of the result tuple; a clean run
returns the missing-file list as the second component.  The function itself
never raises. -/
def check_rinex_stn (t : RnxCheckTask) : Option String × Option (List String) :=
  match t.connFail with
  | some e => (some (e ++ " processing: (" ++ t.net ++ "." ++ t.stn ++
      ") using node"), none)
  | none =>
      match checkRinexLoop t t.rows [] with
      | .ok missing => (none, some missing)
      | .error e => (some (e ++ " processing: " ++ t.net ++ "." ++ t.stn ++
          " using node"), none)

/-- Whether an exception is raised inside the body of a task (before the
enclosing `try`/`except` of `check_rinex_stn` captures it). -/
def taskRaises (t : RnxCheckTask) : Bool :=
  t.connFail.isSome ||
    (match checkRinexLoop t t.rows [] with
     | .error _ => true
     | .ok _ => false)

/-- Modelled from the spec: `pyJobServer.JobServer` is not under `src/`.
Per §4.4/§5 the dispatcher executes every submitted task on the worker
pool, `wait()` returns only after all of them have completed, and each
completed job is handed to the callback with its result (the task
function's return value; the per-job `exception` slot stays unset because
`check_rinex_stn` catches everything). -/
def JobServerRun (tasks : List RnxCheckTask) :
    List (Option String × Option (List String)) :=
  tasks.map check_rinex_stn

/-- Embeds `stnrnx_callback` (IntegrityCheck.py:42-49) applied to each
completed job in turn: `job.result` is a tuple — never `None` here — so the
callback appends every result to the aggregate list. -/
def stnrnxAggregate (results : List (Option String × Option (List String))) :
    List (Option String × Option (List String)) :=
  results.foldl (fun acc r => acc ++ [r]) []

/-- Embeds the `CheckRinexIntegrity` batch (IntegrityCheck.py:146-172):
submit one task per station, wait for all of them, and aggregate the
results through the callback. -/
def CheckRinexIntegrityResults (tasks : List RnxCheckTask) :
    List (Option String × Option (List String)) :=
  stnrnxAggregate (JobServerRun tasks)

/-! ## Events (`pyEvents.Event`) -/

/-- A Python value stored in an `Event` dictionary. -/
inductive PyVal
  | vstr (s : String)
  | vint (n : Int)
  | vnone
  | vdate
deriving DecidableEq, Repr

/-- The keys of a dictionary, in insertion order. -/
def dictKeys (d : List (String × PyVal)) : List String := d.map (fun kv => kv.1)

/-- `d[k] = v` for a key already present (the only way `Event.__init__`
mutates the dictionary). -/
def dictSet (d : List (String × PyVal)) (k : String) (v : PyVal) :
    List (String × PyVal) :=
  d.map (fun kv => if kv.1 = k then (k, v) else kv)

/-- `d[k]`, `none` when the key is absent. -/
def dictGet : List (String × PyVal) → String → Option PyVal
  | [], _ => none
  | kv :: rest, k => if kv.1 = k then some kv.2 else dictGet rest k

/-- The dictionary contents after the fixed initialisation of
`Event.__init__` (pyEvents.py:21-38): `EventDate = now`, `EventType =
'info'`, station fields and `stack` set to `None`, `Description` empty,
`node` and `module` from the environment. -/
def eventBase (now nodeName moduleName : PyVal) : List (String × PyVal) :=
  [("EventDate", now), ("EventType", .vstr "info"), ("NetworkCode", .vnone),
   ("StationCode", .vnone), ("Year", .vnone), ("DOY", .vnone),
   ("Description", .vstr ""), ("node", nodeName), ("stack", .vnone),
   ("module", moduleName)]

/-- The kwargs loop of `Event.__init__` (pyEvents.py:41-46): a keyword
whose name is not an existing key raises
`'Provided key not in list of valid fields.'`; otherwise the value is
stored. -/
def applyKwargs :
    List (String × PyVal) → List (String × PyVal) →
      Except String (List (String × PyVal))
  | d, [] => .ok d
  | d, (k, v) :: rest =>
      if (dictKeys d).contains k then applyKwargs (dictSet d k v) rest
      else .error "Provided key not in list of valid fields."

/-- Embeds `Event.__init__` (pyEvents.py:17-51): fixed initialisation, the
kwargs loop, then the unconditional `stack` assignment — a traceback string
when `EventType == 'error'`, `None` otherwise. -/
def eventInit (now nodeName moduleName : PyVal) (stackTrace : String)
    (kwargs : List (String × PyVal)) : Except String (List (String × PyVal)) :=
  (applyKwargs (eventBase now nodeName moduleName) kwargs).map (fun d =>
    if dictGet d "EventType" = some (.vstr "error")
    then dictSet d "stack" (.vstr stackTrace)
    else dictSet d "stack" .vnone)

/-- The fixed field set of an `Event`. -/
def eventFields : List String :=
  ["EventDate", "EventType", "NetworkCode", "StationCode", "Year", "DOY",
   "Description", "node", "stack", "module"]

/-! ## Date-filter parsing (`Utils.process_date`) -/

/-- Modelled from the spec: the `pyDate` date library is not under `src/`
(§1 treats it as an assumed supporting library whose representations are
interconvertible).  Each constructor yields the date's day number;
`ofFyearStr` covers `float(arg)` followed by `Date(fyear=...)`, returning
`none` when parsing raises. -/
structure DateLib where
  ofFyearStr : String → Option Int
  ofYearDoy : Int → Int → Int
  ofYmd : Int → Int → Int → Int
  ofGpsWeek : Int → Int → Int

/-- Embeds the per-element branch chain of `process_date`
(Utils.py:377-391): the four delimiter formats, then the bare-integer
now-minus-N branch guarded by `allow_days and i == 0`; an empty string
matches no branch and leaves the slot at its default (`.ok none`).  Every
exception is re-raised as the `ValueError` of Utils.py:393. -/
def processArg (lib : DateLib) (today : Int) (allowDays : Bool) (i : Nat)
    (arg : String) : Except String (Option Int) :=
  if pyContains arg '.' then
    match lib.ofFyearStr arg with
    | some d => .ok (some d)
    | none => .error "Could not decode input date"
  else if pyContains arg '_' then
    match pySplit arg '_' with
    | y :: d :: _ =>
        match pyInt y, pyInt d with
        | some yv, some dv => .ok (some (lib.ofYearDoy yv dv))
        | _, _ => .error "Could not decode input date"
    | _ => .error "Could not decode input date"
  else if pyContains arg '/' then
    match pySplit arg '/' with
    | y :: m :: d :: _ =>
        match pyInt y, pyInt m, pyInt d with
        | some yv, some mv, some dv => .ok (some (lib.ofYmd yv mv dv))
        | _, _, _ => .error "Could not decode input date"
    | _ => .error "Could not decode input date"
  else if pyContains arg '-' then
    match pySplit arg '-' with
    | w :: wd :: _ =>
        match pyInt w, pyInt wd with
        | some wv, some wdv => .ok (some (lib.ofGpsWeek wv wdv))
        | _, _ => .error "Could not decode input date"
    | _ => .error "Could not decode input date"
  else if 0 < arg.length then
    if allowDays && i == 0 then
      match pyInt arg with
      | some n => .ok (some (today - n))
      | none => .error "Could not decode input date"
    else .error "Invalid input date: allow_days was set to False."
  else .ok none

/-- The indexed assignment loop of `process_date` (Utils.py:376-391) over
the two-slot `dates` vector; assigning a slot beyond index 1 is the
`IndexError` of `dates[i] = ...`, re-raised as a `ValueError`. -/
def processDateLoop (lib : DateLib) (today : Int) (allowDays : Bool) :
    Nat → List String → Int × Int → Except String (Int × Int)
  | _, [], ds => .ok ds
  | i, arg :: rest, (d0, d1) =>
      match processArg lib today allowDays i arg with
      | .error e => .error e
      | .ok none => processDateLoop lib today allowDays (i + 1) rest (d0, d1)
      | .ok (some v) =>
          match i with
          | 0 => processDateLoop lib today allowDays 1 rest (v, d1)
          | 1 => processDateLoop lib today allowDays 2 rest (d0, v)
          | _ => .error "list assignment index out of range"

/-- Embeds `process_date` (Utils.py:365-397) with the default
`missing_input='fill'`: the slots start at `(Date(year=1980, doy=1),
Date(datetime=now))` and an empty argument list returns them unchanged. -/
def process_date (lib : DateLib) (today : Int) (args : List String)
    (allowDays : Bool := true) : Except String (Int × Int) :=
  processDateLoop lib today allowDays 0 args (lib.ofYearDoy 1980 1, today)

/-- A concrete `DateLib` used to evaluate closed statements: year/day-of-year
and calendar dates are encoded positionally, fractional-year strings are
rejected. -/
def dateLib0 : DateLib :=
  ⟨fun _ => none, fun y d => y * 1000 + d, fun y m d => y * 10000 + m * 100 + d,
    fun w d => w * 10 + d⟩

/-! ## Station rename / merge (`RenameStation`) -/

/-- One station-info record with the fields the rename operation reads and
rewrites: station identity, validity interval (day numbers; `none` DateEnd
means open-ended) and the receiver serial standing for the record's
payload. -/
structure SIRec where
  net : String
  stn : String
  dateStart : Int
  dateEnd : Option Int
  receiverSerial : String
deriving DecidableEq, Repr

/-- Modelled from the spec: `pyStationInfo.StationInfo(cnn, net, stn, date)`
resolution is not under `src/`.  Per §4.1 `load` resolves the record whose
`[DateStart, DateEnd)` interval contains the date — an open-ended record
covers everything from its `DateStart` — choosing the record with the
latest `DateStart` on a shared boundary, and fails (`none`) when the date
falls outside every interval. -/
def applicableRecord (si : List SIRec) (net stn : String) (t : Int) :
    Option SIRec :=
  match si.filter (fun r =>
      r.net == net && r.stn == stn && decide (r.dateStart ≤ t) &&
        (match r.dateEnd with
         | none => true
         | some e => decide (t < e))) with
  | [] => none
  | c :: rest =>
      some (rest.foldl (fun b x => if b.dateStart < x.dateStart then x else b) c)

/-- Whether a station has any station-info record at all
(`StationInfo(cnn, net, stn)` without a date raises `NotFound` when it has
none and `allow_empty` is not requested — spec §4.1). -/
def hasStationRecords (si : List SIRec) (net stn : String) : Bool :=
  si.any (fun r => r.net == net && r.stn == stn)

/-- Embeds the station-info transfer step of `RenameStation`
(IntegrityCheck.py:617-638), with the missing `pyStationInfo` calls
modelled from spec §4.1: if the destination has a record applicable to the
moved file's date, nothing happens; otherwise `StationInfo(dest)` is
loaded (raising when the destination has no records at all, in which case
the handler only warns), the source's applicable record is fetched, its
`StationCode` — and only its `StationCode`, per line 632 — is forced to the
destination's, and the record is inserted into the catalog. -/
def stnInfoTransfer (si : List SIRec) (srcNet srcStn dstNet dstStn : String)
    (day : Int) : List SIRec :=
  match applicableRecord si dstNet dstStn day with
  | some _ => si
  | none =>
      if hasStationRecords si dstNet dstStn then
        match applicableRecord si srcNet srcStn day with
        | some rec => si ++ [{ rec with stn := dstStn }]
        | none => si
      else si

/-- Day number of a rinex row's observation date,
`pyDate.Date(year=..., doy=...)` (modelled: a fixed injective encoding of
(year, day-of-year), order-compatible for valid days of year). -/
def dayOfRow (r : RnxRow) : Int := r.year * 1000 + r.doy

/-- The mutable state the rename operation acts on: the committed `rinex`
catalog rows, the set of physical archive file paths, and the station-info
catalog. -/
structure MergeSt where
  rows : List RnxRow
  fs : List String
  si : List SIRec
deriving DecidableEq, Repr

/-- The four failure points inside one file's migration: the catalog
`UPDATE`, `os.makedirs`, `shutil.move` and `commit_transac`. -/
inductive RenameStep
  | updateRow
  | makeDirs
  | moveFile
  | commit
deriving DecidableEq, Repr

/-- Whether the injected failure plan fires at step `s` of file `idx`. -/
def failMatch (plan : Option (Nat × RenameStep)) (idx : Nat) (s : RenameStep) :
    Bool :=
  match plan with
  | some (i, st) => i == idx && st == s
  | none => false

/-- The archive directory of a source rinex file,
`os.path.split(os.path.join(archive_path, src_file_path))[0]`. -/
def srcDirOf (archivePath srcNet srcStn : String) (r : RnxRow) : String :=
  archivePath ++ "/" ++ srcNet ++ "/" ++ toString r.year ++ "/" ++
    toString r.doy ++ "/" ++ srcStn

/-- The catalog `UPDATE` of IntegrityCheck.py:596-601: every row matching
the source identity, observation year/day-of-year and filename gets the
destination identity and the renamed file (with `d.Z` replaced by `o`). -/
def renameRowUpdate (srcNet srcStn dstNet dstStn : String) (r0 : RnxRow)
    (destFile : String) (rows : List RnxRow) : List RnxRow :=
  rows.map (fun r =>
    if r.net == srcNet && r.stn == srcStn && r.year == r0.year &&
        r.doy == r0.doy && r.filename == r0.filename
    then { r with net := dstNet, stn := dstStn,
                  filename := pyReplace destFile "d.Z" "o" }
    else r)

/-- `shutil.move`: the source path disappears, the destination appears. -/
def moveFsFile (fs : List String) (src dst : String) : List String :=
  (fs.filter (fun p => !(p == src))) ++ [dst]

/-- The effect of migrating one file without failure: the committed catalog
update, the physical move (destination directory obtained by the string
replacements of IntegrityCheck.py:591 and 606), and the station-info
transfer that follows the commit. -/
def migrateFile (archivePath srcNet srcStn dstNet dstStn : String) (r : RnxRow)
    (st : MergeSt) : MergeSt :=
  let srcDir := srcDirOf archivePath srcNet srcStn r
  let destFile := pyReplace r.filename srcStn dstStn
  let destDir := pyReplace (pyReplace srcDir srcStn dstStn) srcNet dstNet
  { rows := renameRowUpdate srcNet srcStn dstNet dstStn r destFile st.rows,
    fs := moveFsFile st.fs (srcDir ++ "/" ++ r.filename)
      (destDir ++ "/" ++ destFile),
    si := stnInfoTransfer st.si srcNet srcStn dstNet dstStn (dayOfRow r) }

/-- One iteration of the transfer loop of `RenameStation`
(IntegrityCheck.py:582-638): begin a transaction, run the catalog update,
create the destination directory, move the physical file, commit, then
transfer station info.  A failure raises after `rollback_transac`
(IntegrityCheck.py:640-642): the transaction's pending catalog update is
discarded, but a completed physical move is *not* undone — a failure at the
commit step leaves the file at its destination path.  The `.error` payload
is the observable state when the exception propagates. -/
def renameOneFile (plan : Option (Nat × RenameStep)) (idx : Nat)
    (archivePath srcNet srcStn dstNet dstStn : String) (r : RnxRow)
    (st : MergeSt) : Except MergeSt MergeSt :=
  if failMatch plan idx .updateRow then .error st
  else if failMatch plan idx .makeDirs then .error st
  else if failMatch plan idx .moveFile then .error st
  else
    let srcDir := srcDirOf archivePath srcNet srcStn r
    let destFile := pyReplace r.filename srcStn dstStn
    let destDir := pyReplace (pyReplace srcDir srcStn dstStn) srcNet dstNet
    let fsMoved := moveFsFile st.fs (srcDir ++ "/" ++ r.filename)
      (destDir ++ "/" ++ destFile)
    if failMatch plan idx .commit then .error { st with fs := fsMoved }
    else .ok (migrateFile archivePath srcNet srcStn dstNet dstStn r st)

/-- The transfer loop over the queued files, indexed from 0; the first
failure propagates (`raise`) and the remaining files are not processed. -/
def renameLoop (plan : Option (Nat × RenameStep))
    (archivePath srcNet srcStn dstNet dstStn : String) :
    Nat → List RnxRow → MergeSt → Except MergeSt MergeSt
  | _, [], st => .ok st
  | idx, r :: rest, st =>
      match renameOneFile plan idx archivePath srcNet srcStn dstNet dstStn r st with
      | .error st2 => .error st2
      | .ok st2 =>
          renameLoop plan archivePath srcNet srcStn dstNet dstStn (idx + 1) rest st2

/-- Migrating a list of files without any failure. -/
def migrateAll (archivePath srcNet srcStn dstNet dstStn : String)
    (files : List RnxRow) (st : MergeSt) : MergeSt :=
  files.foldl
    (fun s r => migrateFile archivePath srcNet srcStn dstNet dstStn r s) st

/-- The selection query of IntegrityCheck.py:572-575: the source station's
rows whose observation start time lies in the requested window, fixed
before any renaming happens. -/
def selectedRows (rows : List RnxRow) (srcNet srcStn : String) (qs qe : Int) :
    List RnxRow :=
  rows.filter (fun r =>
    r.net == srcNet && r.stn == srcStn && decide (qs ≤ r.stime) &&
      decide (r.stime ≤ qe))

/-- Embeds `RenameStation` (IntegrityCheck.py:556-642): when the
destination station does not exist only a message is printed; otherwise the
pre-selected source rows are migrated one by one. -/
def RenameStation (plan : Option (Nat × RenameStep)) (destExists : Bool)
    (archivePath srcNet srcStn dstNet dstStn : String) (qs qe : Int)
    (st : MergeSt) : Except MergeSt MergeSt :=
  if destExists then
    renameLoop plan archivePath srcNet srcStn dstNet dstStn 0
      (selectedRows st.rows srcNet srcStn qs qe) st
  else .ok st

/-! ## Theorems -/

/-- Days of the interval `[first, first + n)` as produced inside `GetGaps`. -/
theorem mem_dayRange (first : Int) (n : Nat) (d : Int) :
    d ∈ dayRange first n ↔ first ≤ d ∧ d < first + n := by
  induction n generalizing first with
  | zero => simp [dayRange]
  | succ m ih =>
      simp only [dayRange, List.mem_cons, ih]
      omega

/-- C2 (counterexample): the claim says every calendar day of the queried
range with no inventory row is returned as a gap.  For inventory `{2}` and
queried range `[1, 3]`, day `1` lies in the range and has no inventory row,
yet `GetGaps` returns no gaps at all: the source resets the range to the
limits of the observed data before complementing. -/
theorem GetGaps_not_complement_of_queried_range :
    GetGaps [2] 1 3 = ([], [2]) ∧ (1 : Int) ∉ (GetGaps [2] 1 3).1 := by
  refine ⟨rfl, ?_⟩
  decide

/-- C2 (amended): `GetGaps` is the exact set-complement of the observed days
within the *data limits* — the window from the first to the last observed
day inside the queried range (the source comment reads `# make the start
date and end date the limits of the data`).  A day is returned as a gap iff
it lies between the first and last observed day and has no inventory row.
The spec's example, whose range coincides with the data limits, holds:
inventory `{1,2,5,6}` on range `[1,6]` gives gaps exactly `{3,4}`. -/
theorem GetGaps_complement_within_data_limits (inv : List Int) (qs qe first : Int)
    (rest : List Int) (h : queryRinexDays inv qs qe = first :: rest) (d : Int) :
    (d ∈ (GetGaps inv qs qe).1 ↔
      first ≤ d ∧ d ≤ (first :: rest).getLast (List.cons_ne_nil first rest) ∧
        d ∉ first :: rest) ∧
    GetGaps [1, 2, 5, 6] 1 6 = ([3, 4], [1, 2, 3, 4, 5, 6]) := by
  refine ⟨?_, rfl⟩
  unfold GetGaps
  rw [h]
  simp only [List.mem_filter, mem_dayRange, decide_eq_true_eq]
  constructor
  · rintro ⟨⟨h1, h2⟩, h3⟩
    exact ⟨h1, by omega, h3⟩
  · rintro ⟨h1, h2, h3⟩
    exact ⟨⟨h1, by omega⟩, h3⟩

/-- C2 witness: the amended theorem applied to the spec's own example. -/
theorem GetGaps_complement_within_data_limits_witness :
    GetGaps [1, 2, 5, 6] 1 6 = ([3, 4], [1, 2, 3, 4, 5, 6]) :=
  (GetGaps_complement_within_data_limits [1, 2, 5, 6] 1 6 1 [2, 5, 6] rfl 0).2

/-- C4: whenever exactly one candidate station lies within the 100 m
tolerance of a solution's position, the check classifies the solution
`Confirmed` (no warning) iff the candidate's identity equals the declared
station's identity; otherwise a name-mismatch warning reporting the
declared versus found identity is emitted (through the `Result`-false /
single-match branch of IntegrityCheck.py:429-432, `'does not match its
station code. Best match: %s.%s'`). -/
theorem spatial_single_candidate_classification (stations : List Candidate)
    (declared : StnId) (c : Candidate)
    (h : stations.filter (fun x => decide (x.distance ≤ 100)) = [c]) :
    (c.id = declared →
      CheckSpatialCoherenceOne stations declared = .confirmedNoWarning) ∧
    (c.id ≠ declared →
      CheckSpatialCoherenceOne stations declared =
        .bestMatchMismatch declared c.id) := by
  have hv : verify_spatial_coherence stations declared =
      (decide (c.id = declared), [c], []) := by
    unfold verify_spatial_coherence
    rw [h]
  constructor
  · intro he
    unfold CheckSpatialCoherenceOne
    rw [hv]
    simp [he]
  · intro he
    unfold CheckSpatialCoherenceOne
    rw [hv]
    simp [he]

/-- C4 witness: a single in-tolerance candidate with the declared identity
is confirmed without warning; with a different identity the mismatch
warning reporting declared vs. found is emitted. -/
theorem spatial_single_candidate_classification_witness :
    CheckSpatialCoherenceOne
        [⟨⟨"igs", "abcd"⟩, 50⟩, ⟨⟨"igs", "efgh"⟩, 500⟩] ⟨"igs", "abcd"⟩ =
      .confirmedNoWarning ∧
    CheckSpatialCoherenceOne
        [⟨⟨"igs", "wxyz"⟩, 50⟩, ⟨⟨"igs", "efgh"⟩, 500⟩] ⟨"igs", "abcd"⟩ =
      .bestMatchMismatch ⟨"igs", "abcd"⟩ ⟨"igs", "wxyz"⟩ :=
  ⟨(spatial_single_candidate_classification _ _ ⟨⟨"igs", "abcd"⟩, 50⟩ (by decide)).1
      (by decide),
    (spatial_single_candidate_classification _ _ ⟨⟨"igs", "wxyz"⟩, 50⟩ (by decide)).2
      (by decide)⟩

/-- C5: evaluation at the failing input.  Two back-to-back station-info
records (`DateEnd` of the first equals `DateStart` of the second, a
zero-second gap) are nevertheless queried for inventory rows falling
between them, although the claim — and the source's own comment, `if the
delta between previous and current session exceeds one second` — only
admits the query when the gap exceeds one second: the unparenthesised
`total_seconds` on IntegrityCheck.py:308 makes the condition always true
under Python 2 (and a `TypeError` under Python 3). -/
theorem stnInfoCheck_zero_second_gap_queried :
    stnInfoGapPairsQueried [⟨0, 100⟩, ⟨100, 200⟩] = [(100, 100)] ∧
      ¬ ((100 : Int) - 100 > 1) :=
  ⟨rfl, by decide⟩

/-- C3: evaluation of `GetStnGaps` at the failing input.  With observed days
`{10, 17}` and ignore-threshold `5` there is a contiguous run of six missing
days `11..16` (exhibited by `GetGaps`), whose length exceeds the threshold,
yet `GetStnGaps` reports nothing: the loop closes a gap only when it later
meets a *consecutive pair* of observed days, so this run is never closed.
Adding an observation on day `18` makes the pair `(17, 18)` consecutive and
the very same run is then reported. -/
theorem GetStnGaps_drops_unclosed_run :
    GetStnGaps [10, 17] 5 0 100 = [] ∧
      (GetGaps [10, 17] 0 100).1 = [11, 12, 13, 14, 15, 16] ∧
      GetStnGaps [10, 17, 18] 5 0 100 = [⟨11, 16, 6⟩] := by
  exact ⟨rfl, rfl, rfl⟩

/-- The closing-line count is additive over concatenation. -/
theorem closeCount_append (a b : List ReportEmit) :
    closeCount (a ++ b) = closeCount a + closeCount b := by
  simp [closeCount, List.countP_append]

/-- A run header contributes no closing line. -/
theorem closeCount_headOpt (ph : Bool) (d : Int) :
    closeCount (if ph then [ReportEmit.head d] else []) = 0 := by
  cases ph <;> rfl

/-- The print loop emits exactly one closing line per run boundary it walks
past, independently of `print_head` and of the `diff_vect[i-1]` element. -/
theorem closeCount_reportGo (lastD : SerialDiff) (l : List SerialDiff) :
    ∀ prev ph, closeCount (reportGo lastD prev ph l) = runBreaks l := by
  induction l with
  | nil => intro prev ph; rfl
  | cons x tail ih =>
      intro prev ph
      cases tail with
      | nil =>
          cases ph <;> rfl
      | cons y rest =>
          rw [reportGo, closeCount_append, closeCount_headOpt]
          cases hs : sameRun x y with
          | true =>
              simp only [if_pos rfl, hs, if_true]
              rw [ih (some x) false]
              simp [runBreaks, hs]
          | false =>
              simp only [hs, Bool.false_eq_true, if_false]
              have : closeCount (ReportEmit.close x.date (prev.getD lastD).obs
                  (prev.getD lastD).decl :: reportGo lastD (some x) true (y :: rest)) =
                  closeCount (reportGo lastD (some x) true (y :: rest)) + 1 := by
                simp [closeCount, List.countP_cons]
              rw [this, ih (some x) true]
              simp [runBreaks, hs]
              omega

/-- The first group of the spec-side run partition starts with the first
element of the vector. -/
theorem specRuns_cons_head (y : SerialDiff) (rest : List SerialDiff) :
    ∃ g gs, specRuns (y :: rest) = (y :: g) :: gs := by
  induction rest generalizing y with
  | nil => exact ⟨[], [], rfl⟩
  | cons z rs ih =>
      obtain ⟨g, gs, hg⟩ := ih z
      cases hs : sameRun y z with
      | true => exact ⟨z :: g, gs, by rw [specRuns, hg]; simp [hs]⟩
      | false => exact ⟨[], (z :: g) :: gs, by rw [specRuns, hg]; simp [hs]⟩

/-- The number of maximal runs is one more than the number of run
boundaries. -/
theorem specRuns_length (l : List SerialDiff) (h : l ≠ []) :
    (specRuns l).length = runBreaks l + 1 := by
  induction l with
  | nil => exact absurd rfl h
  | cons x tail ih =>
      cases tail with
      | nil => simp [specRuns, runBreaks]
      | cons y rest =>
          obtain ⟨g, gs, hg⟩ := specRuns_cons_head y rest
          have ihl := ih (by simp)
          rw [hg] at ihl
          cases hs : sameRun x y with
          | true =>
              rw [specRuns, hg]
              simp only [hs, if_true]
              simp only [List.length_cons] at ihl ⊢
              rw [runBreaks]
              simp [hs]
              omega
          | false =>
              rw [specRuns, hg]
              simp only [hs, Bool.false_eq_true, if_false]
              simp only [List.length_cons] at ihl ⊢
              rw [runBreaks]
              simp [hs]
              omega

/-- C6: the receiver-serial report loop of `StnInfoRinexIntegrity` emits
exactly one reported range per maximal run of consecutive dates carrying
the identical (observed, declared) mismatched pair; in particular three
consecutive days with the identical pair produce one header and one closing
line — a single reported range spanning the first to the last day, not
three lines.  The last two conjuncts evaluate `compare_stninfo_rinex`: the
serials are compared case-insensitively at the session midpoint, a
case-only difference produces no mismatch tuple, and a real mismatch is
collected as (date, observed serial, declared serial lower-cased). -/
theorem StnInfoRinexIntegrity_one_range_per_run (v : List SerialDiff)
    (d : Int) (o s : String) :
    closeCount (coalescedReport v) = (specRuns v).length ∧
    coalescedReport [⟨d, o, s⟩, ⟨d + 1, o, s⟩, ⟨d + 2, o, s⟩] =
      [.head d, .close (d + 2) o s] ∧
    (compare_stninfo_rinex (fun _ => .ok "AbC") 0 172800 "aBc").2 = none ∧
    (compare_stninfo_rinex (fun _ => .ok "AbC") 0 172800 "xyz").2 =
      some ⟨1, "xyz", "abc"⟩ := by
  refine ⟨?_, ?_, rfl, rfl⟩
  · cases v with
    | nil => rfl
    | cons x xs =>
        rw [coalescedReport, closeCount_append, closeCount_reportGo,
          specRuns_length (x :: xs) (by simp)]
        rfl
  · simp [coalescedReport, reportGo, sameRun, List.getLast]
    omega

/-- A failure injected before the physical move of file `m` (0-based)
aborts the loop with exactly the first `m` files migrated. -/
theorem renameLoop_fails_before_move (archivePath srcNet srcStn dstNet dstStn : String)
    (step : RenameStep) (hstep : step ≠ .commit) (files : List RnxRow) :
    ∀ (idx m : Nat) (st : MergeSt), m < files.length →
      renameLoop (some (idx + m, step)) archivePath srcNet srcStn dstNet dstStn
          idx files st =
        .error (migrateAll archivePath srcNet srcStn dstNet dstStn
          (files.take m) st) := by
  induction files with
  | nil => intro idx m st hm; simp at hm
  | cons r rest ih =>
      intro idx m st hm
      cases m with
      | zero =>
          have h1 : renameOneFile (some (idx + 0, step)) idx archivePath srcNet
              srcStn dstNet dstStn r st = .error st := by
            cases step with
            | updateRow => simp [renameOneFile, failMatch]
            | makeDirs => simp [renameOneFile, failMatch]
            | moveFile => simp [renameOneFile, failMatch]
            | commit => exact absurd rfl hstep
          rw [renameLoop, h1]
          rfl
      | succ m2 =>
          have hne : ((idx + (m2 + 1) == idx) : Bool) = false := by
            simp only [beq_eq_false_iff_ne, ne_eq]
            omega
          have h1 : renameOneFile (some (idx + (m2 + 1), step)) idx archivePath
              srcNet srcStn dstNet dstStn r st =
              .ok (migrateFile archivePath srcNet srcStn dstNet dstStn r st) := by
            unfold renameOneFile failMatch
            simp [hne]
          rw [renameLoop, h1]
          show renameLoop (some (idx + (m2 + 1), step)) archivePath srcNet srcStn
              dstNet dstStn (idx + 1) rest
              (migrateFile archivePath srcNet srcStn dstNet dstStn r st) = _
          have harr : idx + (m2 + 1) = (idx + 1) + m2 := by omega
          rw [harr, ih (idx + 1) m2 _ (by simpa using hm)]
          rfl

/-- C1 (amended): when the injected failure strikes file `m` (0-based) of
the selected queue at the catalog update, the directory creation or the
physical move — i.e. before the file's physical move completes — the
operation re-raises with exactly the first `m` files migrated: their
catalog rows and physical paths carry the destination identity, while file
`m` and every later file keep their original catalog rows and physical
locations (the state equals a clean migration of just the first `m`
files). -/
theorem RenameStation_failure_rollback_amended
    (archivePath srcNet srcStn dstNet dstStn : String) (qs qe : Int)
    (st : MergeSt) (m : Nat) (step : RenameStep) (hstep : step ≠ .commit)
    (hm : m < (selectedRows st.rows srcNet srcStn qs qe).length) :
    RenameStation (some (m, step)) true archivePath srcNet srcStn dstNet dstStn
        qs qe st =
      .error (migrateAll archivePath srcNet srcStn dstNet dstStn
        ((selectedRows st.rows srcNet srcStn qs qe).take m) st) := by
  unfold RenameStation
  have := renameLoop_fails_before_move archivePath srcNet srcStn dstNet dstStn
    step hstep (selectedRows st.rows srcNet srcStn qs qe) 0 m st hm
  simpa using this

/-- C1 witness: with two queued files and the failure at the catalog update
of the second file, the first file is fully migrated, the second keeps its
original row and path, and the exception propagates. -/
theorem RenameStation_failure_rollback_amended_witness :
    RenameStation (some (1, .updateRow)) true "a" "n1" "s1" "n2" "s2" 0 100
        ⟨[⟨"n1", "s1", 2020, 100, "s1xx.d.Z", 50⟩,
          ⟨"n1", "s1", 2020, 101, "s1yy.d.Z", 60⟩],
         ["a/n1/2020/100/s1/s1xx.d.Z", "a/n1/2020/101/s1/s1yy.d.Z"], []⟩ =
      .error ⟨[⟨"n2", "s2", 2020, 100, "s2xx.o", 50⟩,
               ⟨"n1", "s1", 2020, 101, "s1yy.d.Z", 60⟩],
              ["a/n1/2020/101/s1/s1yy.d.Z", "a/n2/2020/100/s2/s2xx.d.Z"], []⟩ :=
  (RenameStation_failure_rollback_amended "a" "n1" "s1" "n2" "s2" 0 100
      ⟨[⟨"n1", "s1", 2020, 100, "s1xx.d.Z", 50⟩,
        ⟨"n1", "s1", 2020, 101, "s1yy.d.Z", 60⟩],
       ["a/n1/2020/100/s1/s1xx.d.Z", "a/n1/2020/101/s1/s1yy.d.Z"], []⟩
      1 .updateRow (by decide) (by decide)).trans rfl

/-- C1 (counterexample): the claim says a failure while migrating file `m`
leaves file `m` fully rolled back to its pre-migration state — original
catalog row *and original physical location*.  A failure at the commit step
of the (single) queued file refutes this: the rollback restores the catalog
row, but the already-moved physical file stays at the destination path and
the source path no longer exists. -/
theorem RenameStation_commit_failure_leaves_file_moved :
    RenameStation (some (0, .commit)) true "a" "n1" "s1" "n2" "s2" 0 100
        ⟨[⟨"n1", "s1", 2020, 100, "s1xx.d.Z", 50⟩],
         ["a/n1/2020/100/s1/s1xx.d.Z"], []⟩ =
      .error ⟨[⟨"n1", "s1", 2020, 100, "s1xx.d.Z", 50⟩],
              ["a/n2/2020/100/s2/s2xx.d.Z"], []⟩ ∧
    "a/n1/2020/100/s1/s1xx.d.Z" ∉ (["a/n2/2020/100/s2/s2xx.d.Z"] : List String) :=
  ⟨rfl, by decide⟩

/-- The aggregation callback keeps every job's result, in order. -/
theorem stnrnxAggregate_eq (l : List (Option String × Option (List String))) :
    stnrnxAggregate l = l := by
  have h : ∀ (l acc : List (Option String × Option (List String))),
      List.foldl (fun acc r => acc ++ [r]) acc l = acc ++ l := by
    intro l
    induction l with
    | nil => intro acc; simp
    | cons x xs ih => intro acc; simp [List.foldl, ih]
  simpa using h l []

/-- `check_rinex_stn` returns an error entry exactly when its body raises:
the exception is captured in the result tuple instead of propagating. -/
theorem check_rinex_stn_error_iff (t : RnxCheckTask) :
    (check_rinex_stn t).1.isSome = taskRaises t := by
  unfold check_rinex_stn taskRaises
  cases t.connFail with
  | some e => rfl
  | none =>
      cases h : checkRinexLoop t t.rows [] with
      | ok missing => simp [h]
      | error e => simp [h]

/-- Counting the complement of a Boolean predicate. -/
theorem countP_not_eq_length_sub (p : α → Bool) (l : List α) :
    l.countP (fun a => !(p a)) = l.length - l.countP p := by
  induction l with
  | nil => simp
  | cons x xs ih =>
      have hle : xs.countP p ≤ xs.length := List.countP_le_length p
      cases h : p x
      case false =>
        simp [List.countP_cons, h, ih]
        try omega
      case true =>
        simp [List.countP_cons, h, ih]
        try omega

/-- C7: for every batch of station-check tasks of which exactly one raises,
the dispatcher completes all of them, the aggregated collection has one
entry per task, each entry is an error entry exactly when its own task
raised (the exception is attached to that task's result rather than
propagating), and the collection holds exactly one error entry and N−1
success entries. -/
theorem dispatcher_isolates_failing_task (tasks : List RnxCheckTask)
    (h : tasks.countP taskRaises = 1) :
    (CheckRinexIntegrityResults tasks).length = tasks.length ∧
    (∀ i : Nat, ((CheckRinexIntegrityResults tasks)[i]?).map
        (fun r => r.1.isSome) = (tasks[i]?).map taskRaises) ∧
    (CheckRinexIntegrityResults tasks).countP (fun r => r.1.isSome) = 1 ∧
    (CheckRinexIntegrityResults tasks).countP (fun r => r.1.isNone) =
      tasks.length - 1 := by
  have hres : CheckRinexIntegrityResults tasks = tasks.map check_rinex_stn := by
    unfold CheckRinexIntegrityResults JobServerRun
    exact stnrnxAggregate_eq _
  refine ⟨?_, ?_, ?_, ?_⟩
  · rw [hres]; simp
  · intro i
    rw [hres, List.getElem?_map, Option.map_map]
    have : ((fun r : Option String × Option (List String) => r.1.isSome) ∘
        check_rinex_stn) = taskRaises := by
      funext t
      exact check_rinex_stn_error_iff t
    rw [this]
  · rw [hres, List.countP_map]
    have : ((fun r : Option String × Option (List String) => r.1.isSome) ∘
        check_rinex_stn) = taskRaises := by
      funext t
      exact check_rinex_stn_error_iff t
    rw [this, h]
  · rw [hres, List.countP_map]
    have h2 : ((fun r : Option String × Option (List String) => r.1.isNone) ∘
        check_rinex_stn) = (fun t => !(taskRaises t)) := by
      funext t
      have hiff := check_rinex_stn_error_iff t
      simp only [Function.comp]
      rw [← hiff]
      cases (check_rinex_stn t).1 <;> rfl
    rw [h2, countP_not_eq_length_sub, h]

/-- C7 witness: three concrete tasks of which the middle one raises while
opening its database connection — the batch yields three entries, one
error and two successes. -/
theorem dispatcher_isolates_failing_task_witness :
    (CheckRinexIntegrityResults
        [⟨"igs", "aaaa", none, [], "arch", fun _ => true, fun _ => none⟩,
         ⟨"igs", "bbbb", some "boom", [], "arch", fun _ => true, fun _ => none⟩,
         ⟨"igs", "cccc", none, [], "arch", fun _ => true, fun _ => none⟩]).length = 3 ∧
    (CheckRinexIntegrityResults
        [⟨"igs", "aaaa", none, [], "arch", fun _ => true, fun _ => none⟩,
         ⟨"igs", "bbbb", some "boom", [], "arch", fun _ => true, fun _ => none⟩,
         ⟨"igs", "cccc", none, [], "arch", fun _ => true, fun _ => none⟩]).countP
        (fun r => r.1.isSome) = 1 ∧
    (CheckRinexIntegrityResults
        [⟨"igs", "aaaa", none, [], "arch", fun _ => true, fun _ => none⟩,
         ⟨"igs", "bbbb", some "boom", [], "arch", fun _ => true, fun _ => none⟩,
         ⟨"igs", "cccc", none, [], "arch", fun _ => true, fun _ => none⟩]).countP
        (fun r => r.1.isNone) = 2 :=
  by
  have h := dispatcher_isolates_failing_task
      [⟨"igs", "aaaa", none, [], "arch", fun _ => true, fun _ => none⟩,
       ⟨"igs", "bbbb", some "boom", [], "arch", fun _ => true, fun _ => none⟩,
       ⟨"igs", "cccc", none, [], "arch", fun _ => true, fun _ => none⟩] rfl
  exact ⟨h.1, h.2.2.1, h.2.2.2⟩

/-- C8 (counterexample): the claim says the copied record is retagged with
the destination station identity.  Line 632 forces only the `StationCode`;
with source `n1.s1` and destination `n2.s2`, the record inserted into the
destination's station-info keeps `NetworkCode = "n1"` — it is not the
fully-retagged record the claim describes. -/
theorem stnInfoTransfer_keeps_source_network :
    stnInfoTransfer
        [⟨"n2", "s2", 1000, some 2000, "SER2"⟩, ⟨"n1", "s1", 4000, none, "SER1"⟩]
        "n1" "s1" "n2" "s2" 5000 =
      [⟨"n2", "s2", 1000, some 2000, "SER2"⟩, ⟨"n1", "s1", 4000, none, "SER1"⟩,
       ⟨"n1", "s2", 4000, none, "SER1"⟩] ∧
    ¬ (stnInfoTransfer
        [⟨"n2", "s2", 1000, some 2000, "SER2"⟩, ⟨"n1", "s1", 4000, none, "SER1"⟩]
        "n1" "s1" "n2" "s2" 5000 =
      [⟨"n2", "s2", 1000, some 2000, "SER2"⟩, ⟨"n1", "s1", 4000, none, "SER1"⟩,
       ⟨"n2", "s2", 4000, none, "SER1"⟩]) :=
  ⟨rfl, by decide⟩

/-- C8 (amended): after migrating a moved file dated `day(r)`, if the
destination station has an applicable station-info record for that date the
station-info catalog is unchanged; if it has none but has at least one
record, the source's applicable record is copied with its `StationCode`
(and only its `StationCode`) forced to the destination's and inserted.
(When the destination has no records at all, the `StationInfo(dest)` load
raises `NotFound` and the handler only warns — nothing is inserted.) -/
theorem RenameStation_stninfo_transfer (archivePath srcNet srcStn dstNet
    dstStn : String) (qs qe : Int) (st : MergeSt) (r : RnxRow)
    (hsel : selectedRows st.rows srcNet srcStn qs qe = [r]) :
    (∀ rec, applicableRecord st.si dstNet dstStn (dayOfRow r) = some rec →
      ∃ st2, RenameStation none true archivePath srcNet srcStn dstNet dstStn
          qs qe st = .ok st2 ∧ st2.si = st.si) ∧
    (applicableRecord st.si dstNet dstStn (dayOfRow r) = none →
      hasStationRecords st.si dstNet dstStn = true →
      ∀ rec, applicableRecord st.si srcNet srcStn (dayOfRow r) = some rec →
        ∃ st2, RenameStation none true archivePath srcNet srcStn dstNet dstStn
            qs qe st = .ok st2 ∧
          st2.si = st.si ++ [{ rec with stn := dstStn }]) := by
  have hrun : RenameStation none true archivePath srcNet srcStn dstNet dstStn
      qs qe st =
      .ok (migrateFile archivePath srcNet srcStn dstNet dstStn r st) := by
    unfold RenameStation
    rw [if_pos rfl, hsel]
    rfl
  constructor
  · intro rec hdst
    refine ⟨_, hrun, ?_⟩
    show stnInfoTransfer st.si srcNet srcStn dstNet dstStn (dayOfRow r) = st.si
    unfold stnInfoTransfer
    rw [hdst]
  · intro hdst hhas rec hsrc
    refine ⟨_, hrun, ?_⟩
    show stnInfoTransfer st.si srcNet srcStn dstNet dstStn (dayOfRow r) =
      st.si ++ [{ rec with stn := dstStn }]
    unfold stnInfoTransfer
    rw [hdst, hhas, hsrc]
    simp

/-- C8 witness: one moved file dated day 5000; the destination `n2.s2` has
a record covering `[1000, 2000)` only, so the source's record applicable at
5000 is copied with its StationCode set to `s2` and appended. -/
theorem RenameStation_stninfo_transfer_witness :
    ∃ st2, RenameStation none true "a" "n1" "s1" "n2" "s2" 0 100
        ⟨[⟨"n1", "s1", 2020, 100, "s1xx.d.Z", 50⟩],
         ["a/n1/2020/100/s1/s1xx.d.Z"],
         [⟨"n2", "s2", 1000, some 2000, "SER2"⟩,
          ⟨"n1", "s1", 4000, none, "SER1"⟩]⟩ = .ok st2 ∧
      st2.si = [⟨"n2", "s2", 1000, some 2000, "SER2"⟩,
                ⟨"n1", "s1", 4000, none, "SER1"⟩,
                ⟨"n1", "s2", 4000, none, "SER1"⟩] :=
  (RenameStation_stninfo_transfer "a" "n1" "s1" "n2" "s2" 0 100
      ⟨[⟨"n1", "s1", 2020, 100, "s1xx.d.Z", 50⟩],
       ["a/n1/2020/100/s1/s1xx.d.Z"],
       [⟨"n2", "s2", 1000, some 2000, "SER2"⟩,
        ⟨"n1", "s1", 4000, none, "SER1"⟩]⟩
      ⟨"n1", "s1", 2020, 100, "s1xx.d.Z", 50⟩ rfl).2 rfl rfl
    ⟨"n1", "s1", 4000, none, "SER1"⟩ rfl

/-- Setting an existing key leaves the key list unchanged. -/
theorem dictKeys_dictSet (d : List (String × PyVal)) (k : String) (v : PyVal) :
    dictKeys (dictSet d k v) = dictKeys d := by
  induction d with
  | nil => rfl
  | cons kv rest ih =>
      by_cases h : kv.1 = k
      · simp [dictKeys, dictSet, h] at *
        exact ih
      · simp [dictKeys, dictSet, h] at *
        exact ih

/-- The kwargs loop never changes the key list. -/
theorem applyKwargs_keys (kwargs : List (String × PyVal)) :
    ∀ d d', applyKwargs d kwargs = .ok d' → dictKeys d' = dictKeys d := by
  induction kwargs with
  | nil =>
      intro d d' h
      cases h
      rfl
  | cons kv rest ih =>
      intro d d' h
      rw [applyKwargs] at h
      by_cases hc : (dictKeys d).contains kv.1 = true
      · rw [if_pos hc] at h
        rw [ih _ _ h, dictKeys_dictSet]
      · rw [if_neg hc] at h
        cases h

/-- A keyword argument whose name is not a key makes the loop raise. -/
theorem applyKwargs_badkey (kwargs : List (String × PyVal)) :
    ∀ d, (∃ kv ∈ kwargs, ¬ kv.1 ∈ dictKeys d) →
      (applyKwargs d kwargs).isOk = false := by
  induction kwargs with
  | nil =>
      intro d h
      obtain ⟨kv, hmem, _⟩ := h
      simp at hmem
  | cons hd rest ih =>
      intro d h
      obtain ⟨kv, hmem, hbad⟩ := h
      rw [applyKwargs]
      by_cases hc : (dictKeys d).contains hd.1 = true
      · rw [if_pos hc]
        rcases List.mem_cons.mp hmem with heq | htl
        · subst heq
          exact absurd (by simpa using hc) hbad
        · refine ih _ ⟨kv, htl, ?_⟩
          rw [dictKeys_dictSet]
          exact hbad
      · rw [if_neg hc]
        rfl

/-- Reading back the key just set. -/
theorem dictGet_dictSet_self (d : List (String × PyVal)) (k : String)
    (v : PyVal) (h : k ∈ dictKeys d) : dictGet (dictSet d k v) k = some v := by
  induction d with
  | nil => simp [dictKeys] at h
  | cons kv rest ih =>
      show dictGet ((if kv.1 = k then (k, v) else kv) :: dictSet rest k v) k =
        some v
      by_cases h1 : kv.1 = k
      · rw [if_pos h1]
        simp [dictGet]
      · rw [if_neg h1]
        have h2 : k ∈ dictKeys rest := by
          simp [dictKeys] at h
          rcases h with h | h
          · exact absurd h.symm h1
          · simpa [dictKeys] using h
        rw [dictGet, if_neg h1]
        exact ih h2

/-- Setting one key does not change another. -/
theorem dictGet_dictSet_ne (d : List (String × PyVal)) (k k2 : String)
    (v : PyVal) (h : ¬ k = k2) : dictGet (dictSet d k v) k2 = dictGet d k2 := by
  induction d with
  | nil => rfl
  | cons kv rest ih =>
      show dictGet ((if kv.1 = k then (k, v) else kv) :: dictSet rest k v) k2 =
        dictGet (kv :: rest) k2
      by_cases h1 : kv.1 = k
      · rw [if_pos h1]
        rw [dictGet, if_neg h, dictGet, if_neg (by rw [h1]; exact h)]
        exact ih
      · rw [if_neg h1]
        by_cases h2 : kv.1 = k2
        · rw [dictGet, if_pos h2, dictGet, if_pos h2]
        · rw [dictGet, if_neg h2, dictGet, if_neg h2]
          exact ih

/-- C9: constructing an `Event` with a keyword argument outside the fixed
field set raises, so a successfully constructed `Event` carries exactly the
fixed fields — and its `stack` field is populated (not `None`) iff its
`EventType` is `'error'` (the constructor overwrites `stack`
unconditionally after applying the keyword arguments). -/
theorem Event_field_validation (now nodeName moduleName : PyVal)
    (stackTrace : String) (kwargs : List (String × PyVal)) :
    ((∃ kv ∈ kwargs, ¬ kv.1 ∈ eventFields) →
      (eventInit now nodeName moduleName stackTrace kwargs).isOk = false) ∧
    (∀ d, eventInit now nodeName moduleName stackTrace kwargs = .ok d →
      dictKeys d = eventFields ∧
      ((¬ dictGet d "stack" = some .vnone) ↔
        dictGet d "EventType" = some (.vstr "error"))) := by
  constructor
  · intro hbad
    unfold eventInit
    have h1 : (applyKwargs (eventBase now nodeName moduleName) kwargs).isOk =
        false := by
      refine applyKwargs_badkey kwargs _ ?_
      obtain ⟨kv, hmem, hk⟩ := hbad
      exact ⟨kv, hmem, hk⟩
    cases h2 : applyKwargs (eventBase now nodeName moduleName) kwargs with
    | ok d => rw [h2] at h1; simp [Except.isOk, Except.toBool] at h1
    | error e => rfl
  · intro d hd
    unfold eventInit at hd
    cases h2 : applyKwargs (eventBase now nodeName moduleName) kwargs with
    | error e => rw [h2] at hd; simp [Except.map] at hd
    | ok d0 =>
        rw [h2] at hd
        simp [Except.map] at hd
        have hkeys : dictKeys d0 = eventFields := applyKwargs_keys kwargs _ _ h2
        have hstackmem : "stack" ∈ dictKeys d0 := by
          rw [hkeys]; simp [eventFields]
        by_cases het : dictGet d0 "EventType" = some (.vstr "error")
        · rw [if_pos het] at hd
          subst hd
          refine ⟨by rw [dictKeys_dictSet]; exact hkeys, ?_⟩
          rw [dictGet_dictSet_self _ _ _ hstackmem,
            dictGet_dictSet_ne _ _ _ _ (by decide), het]
          simp
        · rw [if_neg het] at hd
          subst hd
          refine ⟨by rw [dictKeys_dictSet]; exact hkeys, ?_⟩
          rw [dictGet_dictSet_self _ _ _ hstackmem,
            dictGet_dictSet_ne _ _ _ _ (by decide)]
          simp [het]

/-- C9 witness: an unknown keyword (`BadKey`) makes the constructor raise,
and a constructed `Event` with `EventType = 'error'` has a populated
(non-`None`) `stack` field. -/
theorem Event_field_validation_witness :
    (eventInit .vdate (.vstr "host") (.vstr "mod") "tb"
        [("BadKey", .vint 0)]).isOk = false ∧
    ¬ dictGet
        [("EventDate", PyVal.vdate), ("EventType", PyVal.vstr "error"),
         ("NetworkCode", PyVal.vnone), ("StationCode", PyVal.vnone),
         ("Year", PyVal.vnone), ("DOY", PyVal.vnone),
         ("Description", PyVal.vstr "x"), ("node", PyVal.vstr "host"),
         ("stack", PyVal.vstr "tb"), ("module", PyVal.vstr "mod")]
        "stack" = some PyVal.vnone :=
  ⟨(Event_field_validation .vdate (.vstr "host") (.vstr "mod") "tb"
      [("BadKey", .vint 0)]).1 ⟨("BadKey", .vint 0), by decide, by decide⟩,
    ((Event_field_validation .vdate (.vstr "host") (.vstr "mod") "tb"
        [("EventType", .vstr "error"), ("Description", .vstr "x")]).2 _ rfl).2.mpr
      rfl⟩

/-- C10 (counterexample): the claim says any argument list whose first
element is a bare integer yields `today - N` as the start date; but a
*second* bare-integer element raises (`allow_days` only applies at index
0), so `["5", "7"]` produces no date range at all even though its first
element is the bare integer 5. -/
theorem process_date_second_bare_integer_raises :
    (process_date dateLib0 60000 ["5", "7"]).isOk = false ∧
      pyInt "5" = some 5 := ⟨rfl, rfl⟩

/-- C10 (amended): with `allow_days` enabled, an argument list whose first
element is a non-empty string free of `.`, `_`, `/`, `-` (a bare integer
`N`) — and whose remaining element, if any, parses as one of the
delimiter-format dates — yields a start date of `today - N`; with no
arguments the default range (`Date(year=1980, doy=1)`, today) is
returned. -/
theorem process_date_bare_days (lib : DateLib) (today : Int) (n : Int)
    (nstr s : String) (e : Int)
    (h1 : pyContains nstr '.' = false) (h2 : pyContains nstr '_' = false)
    (h3 : pyContains nstr '/' = false) (h4 : pyContains nstr '-' = false)
    (h5 : 0 < nstr.length) (h6 : pyInt nstr = some n) :
    process_date lib today [] = .ok (lib.ofYearDoy 1980 1, today) ∧
    process_date lib today [nstr] = .ok (today - n, today) ∧
    (processArg lib today true 1 s = .ok (some e) →
      process_date lib today [nstr, s] = .ok (today - n, e)) := by
  have harg : processArg lib today true 0 nstr = .ok (some (today - n)) := by
    unfold processArg
    rw [h1, h2, h3, h4]
    simp only [Bool.false_eq_true, if_false, if_pos h5]
    rw [if_pos (by rfl), h6]
  refine ⟨rfl, ?_, ?_⟩
  · unfold process_date processDateLoop
    rw [harg]
    rfl
  · intro hs
    unfold process_date processDateLoop
    rw [harg]
    show processDateLoop lib today true 1 [s] (today - n, today) = _
    unfold processDateLoop
    rw [hs]
    rfl

/-- C10 witness: `-d 5` gives the last five days ending today; with a
second `yyyy_ddd` argument the end slot is replaced; with no arguments the
default range is returned. -/
theorem process_date_bare_days_witness :
    process_date dateLib0 60000 [] = .ok (1980001, 60000) ∧
    process_date dateLib0 60000 ["5"] = .ok (59995, 60000) ∧
    process_date dateLib0 60000 ["5", "2019_100"] = .ok (59995, 2019100) := by
  have h := process_date_bare_days dateLib0 60000 5 "5" "2019_100" 2019100
    rfl rfl rfl rfl (by decide) rfl
  exact ⟨h.1, h.2.1, h.2.2 rfl⟩

end ParallelGamit
